import Mathlib

/-!
# Verification of the Convert Pro conversion engine

Shallow embedding of `lib/converters` (conversion-engine) from the
Convert-Pro-Backend repository, together with proofs of the spec's claims.

Modelling conventions:
* JavaScript thrown values are modelled by `JsError`; an identifier used in
  an expression but declared nowhere in the module raises
  `JsError.referenceError`, exactly as an ES module does at runtime.
* The filesystem visible to `convertFile` is the pair
  (output directory exists?, set of file paths present), threaded
  explicitly.  External converter strategies perform work through outside
  tools (sharp, ffmpeg, pdf-lib), so a strategy's run is abstracted by a
  `StrategyRun`: the percents it emits, whether it leaves a file at the
  candidate output path, and its success or failure.  All other filesystem
  primitives used by the engine (mkdir, access, unlink) are modelled as
  succeeding.
* Machine integers and JS numbers are modelled by `Nat`/`Int`; the one
  floating-point expression, `Math.round((time/duration)*80)`, is modelled
  by exact rational rounding `⌊(160*time + duration) / (2*duration)⌋`.
-/

deriving instance DecidableEq for Except

/-- A JavaScript runtime error: either a `ReferenceError` for an undefined
identifier, or an ordinary `Error` carrying a message. -/
inductive JsError where
  | referenceError (ident : String)
  | error (msg : String)
deriving DecidableEq

/-- The `message` property of a JS error. -/
def JsError.message : JsError → String
  | .referenceError ident => ident ++ " is not defined"
  | .error m => m

/-! ## `path.extname` and the input-extension computation (line 38)

`convertFile` computes `path.extname(inputPath).toLowerCase().slice(1)`;
`convertImageToPdf` computes `path.extname(inputPath).toLowerCase()`.
Node's `path.extname` returns the basename's suffix from its last dot,
unless that dot is the basename's first character. -/

/-- The suffix of `cs` strictly after the last occurrence of `sep`,
or `none` when `sep` does not occur. -/
def afterLast (sep : Char) : List Char → Option (List Char)
  | [] => none
  | c :: cs =>
    match afterLast sep cs with
    | some r => some r
    | none => if c = sep then some cs else none

/-- The basename of a path: the part after the last `/`. -/
def basenameChars (cs : List Char) : List Char :=
  match afterLast '/' cs with
  | some r => r
  | none => cs

/-- `path.extname` on a basename: the substring from the last dot to the
end, where a dot in first position does not start an extension. -/
def extnameChars : List Char → List Char
  | [] => []
  | _ :: rest =>
    match afterLast '.' rest with
    | some suf => '.' :: suf
    | none => []

/-- `path.extname(p).toLowerCase()` (extension including the dot). -/
def extLowerOf (p : String) : String :=
  String.mk ((extnameChars (basenameChars p.data)).map Char.toLower)

/-- `path.extname(p).toLowerCase().slice(1)` (extension without the dot):
the `inputExt` of `convertFile`. -/
def inputExtOf (p : String) : String :=
  String.mk (((extnameChars (basenameChars p.data)).map Char.toLower).drop 1)

/-! ## The Capability Table and the Format Router (`getConverter`) -/

/-- The identifiers declared at module scope of `lib/converters/index.js`
(function declarations and imports usable inside `getConverter`). -/
def declaredIdents : List String :=
  ["sharp", "ffmpeg", "PDFDocument", "fs", "path", "spawn", "archiver",
   "unzipper", "OUTPUT_DIR", "ensureOutputDir", "convertFile", "getConverter",
   "convertImage", "convertImageToPdf", "convertVideo", "convertVideoToGif",
   "extractAudio", "convertAudio", "convertPdfToText", "runFFmpeg",
   "getAudioCodec", "cleanupTempFiles"]

/-- One entry of the `converters` object literal in `getConverter`
(lines 85–104): accepted input tokens, accepted output tokens, and the
identifier the entry's value references, in declaration order. -/
structure TableEntry where
  inputs : List String
  outputs : List String
  ident : String
deriving DecidableEq

/-- The `converters` object literal of `getConverter`, entry by entry in
source order. -/
def converterEntries : List TableEntry :=
  [⟨["jpg","jpeg","png","gif","bmp","webp","tiff"],
    ["jpg","jpeg","png","webp","gif","bmp"], "convertImage"⟩,
   ⟨["jpg","jpeg","png","gif","bmp","webp","tiff"], ["pdf"], "convertImageToPdf"⟩,
   ⟨["pdf"], ["jpg","jpeg","png"], "convertPdfToImage"⟩,
   ⟨["mp4","avi","mov","mkv","webm","flv","3gp"],
    ["mp4","avi","mov","webm"], "convertVideo"⟩,
   ⟨["mp4","avi","mov","mkv","webm","flv","3gp"], ["gif"], "convertVideoToGif"⟩,
   ⟨["mp4","avi","mov","mkv","webm","flv","3gp"], ["mp3","wav","aac"], "extractAudio"⟩,
   ⟨["mp3","wav","flac","m4a","aac","ogg","wma"],
    ["mp3","wav","flac","m4a","aac","ogg"], "convertAudio"⟩,
   ⟨["pdf"], ["txt"], "convertPdfToText"⟩,
   ⟨["zip","rar","7z"], ["zip"], "convertArchive"⟩]

/-- Evaluating the `converters` object literal: each property value is an
identifier resolved against the module scope; the first identifier that is
not declared raises a `ReferenceError` (ES-module semantics). -/
def buildConverters : Except JsError (List TableEntry) :=
  match converterEntries.find? (fun e => !(declaredIdents.contains e.ident)) with
  | some e => .error (.referenceError e.ident)
  | none => .ok converterEntries

/-- `getConverter(inputFormat, outputFormat)` (lines 84–118): evaluate the
object literal, then scan the entries in order and return the first whose
input set contains `inputFormat` and whose output set contains
`outputFormat`; `none` when no entry matches. -/
def getConverter (inputFormat outputFormat : String) :
    Except JsError (Option String) :=
  match buildConverters with
  | .error e => .error e
  | .ok tbl =>
    .ok ((tbl.find? (fun e =>
      e.inputs.contains inputFormat && e.outputs.contains outputFormat)).map
      (·.ident))

theorem buildConverters_eq :
    buildConverters = .error (.referenceError "convertPdfToImage") := by
  rfl

theorem getConverter_eq (i o : String) :
    getConverter i o = .error (.referenceError "convertPdfToImage") := by
  unfold getConverter
  rw [buildConverters_eq]

/-! ## The Conversion Facade (`convertFile`, lines 34–79) -/

/-- The filesystem state visible to `convertFile`: whether the output
directory `temp/converted` exists, and the set of file paths present
(a real filesystem holds each path at most once; `files` is read as a
set of paths). -/
structure FS where
  outputDirExists : Bool
  files : List String
deriving DecidableEq

/-- `ensureOutputDir()` (lines 19–25): create the output directory if it
is absent.  Its only observable effect is that the directory exists. -/
def ensureOutputDir (fs : FS) : FS :=
  { fs with outputDirExists := true }

/-- `fs.unlink` wrapped in `try { } catch {}` (lines 73–75): remove the
path if present; a failure (path absent) is swallowed, so the operation
is total. -/
def unlinkQuiet (fs : FS) (p : String) : FS :=
  { fs with files := fs.files.filter (fun q => q != p) }

/-- The candidate output path (lines 39–40):
`OUTPUT_DIR/⟨timestamp⟩_⟨randomToken⟩.⟨outputFormat⟩` with
`OUTPUT_DIR = temp/converted`. -/
def outputFileNameOf (timestamp : Nat) (token outputFormat : String) : String :=
  toString timestamp ++ "_" ++ token ++ "." ++ outputFormat

def outputPathOf (timestamp : Nat) (token outputFormat : String) : String :=
  "temp/converted/" ++ outputFileNameOf timestamp token outputFormat

/-- One run of a converter strategy (`await converter(inputPath,
outputPath, options, progressCallback)`, line 54), abstracted: the
percents it reports to the progress callback in order, whether it leaves
a file at the candidate output path, and its outcome.  Strategies drive
external tools, so their behavior is a parameter of the model. -/
structure StrategyRun where
  emits : List Nat
  createsOutput : Bool
  result : Except JsError Unit
deriving DecidableEq

/-- The success value of `convertFile` (lines 61–67). -/
structure ConversionResult where
  outputPath : String
  outputFileName : String
  inputFormat : String
  outputFormat : String
deriving DecidableEq

/-- The observable outcome of one `convertFile` call: final filesystem,
the percents delivered to the progress callback in order, and the
returned value or thrown error message. -/
structure ConvertOutcome where
  fs : FS
  emits : List Nat
  result : Except String ConversionResult
deriving DecidableEq

/-- `convertFile(inputPath, outputFormat, options, progressCallback)`
(lines 34–79), with the behavior of each (resolved) strategy supplied by
`beh`, keyed by the strategy's identifier, and the nondeterministic name
components (`Date.now()`, the random token) supplied as `timestamp` and
`token`:

1. `ensureOutputDir()` — before the `try` block;
2. compute `inputExt` and the candidate output path;
3. `getConverter(inputExt, outputFormat)`; a thrown error lands in the
   `catch` block, `null` throws "not supported" into the `catch` block;
4. emit `10`, run the converter, `fs.access(outputPath)` (fails iff no
   file is at the output path), emit `100`, return the result;
5. `catch`: best-effort `unlink` of the candidate path, then throw
   `Conversion failed: ⟨cause message⟩`. -/
def convertFile (beh : String → StrategyRun) (inputPath outputFormat : String)
    (timestamp : Nat) (token : String) (fs0 : FS) : ConvertOutcome :=
  let fs1 := ensureOutputDir fs0
  let inputExt := inputExtOf inputPath
  let outputFileName := outputFileNameOf timestamp token outputFormat
  let outputPath := "temp/converted/" ++ outputFileName
  match getConverter inputExt outputFormat with
  | .error e =>
    { fs := unlinkQuiet fs1 outputPath, emits := [],
      result := .error ("Conversion failed: " ++ e.message) }
  | .ok none =>
    { fs := unlinkQuiet fs1 outputPath, emits := [],
      result := .error ("Conversion failed: " ++
        ("Conversion from " ++ inputExt ++ " to " ++ outputFormat ++
          " not supported")) }
  | .ok (some strategyId) =>
    let run := beh strategyId
    let fs2 := if run.createsOutput
               then { fs1 with files := outputPath :: fs1.files }
               else fs1
    match run.result with
    | .error e =>
      { fs := unlinkQuiet fs2 outputPath, emits := 10 :: run.emits,
        result := .error ("Conversion failed: " ++ e.message) }
    | .ok _ =>
      if fs2.files.contains outputPath then
        { fs := fs2, emits := 10 :: run.emits ++ [100],
          result := .ok ⟨outputPath, outputFileName, inputExt, outputFormat⟩ }
      else
        { fs := unlinkQuiet fs2 outputPath, emits := 10 :: run.emits,
          result := .error ("Conversion failed: " ++
            ("ENOENT: no such file or directory, access " ++ outputPath)) }

/-- Because `getConverter` always raises the `ReferenceError`, every
`convertFile` call takes the `catch` path immediately: no progress is
emitted, the candidate path is unlinked, and the wrapped `ReferenceError`
message is thrown. -/
theorem convertFile_eq (beh : String → StrategyRun)
    (inputPath outputFormat : String) (timestamp : Nat) (token : String)
    (fs0 : FS) :
    convertFile beh inputPath outputFormat timestamp token fs0 =
      { fs := unlinkQuiet (ensureOutputDir fs0)
                (outputPathOf timestamp token outputFormat),
        emits := [],
        result := .error
          "Conversion failed: convertPdfToImage is not defined" } := by
  simp only [convertFile, getConverter_eq]
  rfl

/-- A strategy behavior that emits nothing, writes nothing and succeeds;
used to instantiate `convertFile` at concrete inputs. -/
def noopStrategyRun : String → StrategyRun := fun _ => ⟨[], false, .ok ()⟩

theorem not_mem_filter_ne (l : List String) (p : String) :
    p ∉ l.filter (fun q => q != p) := by
  simp [List.mem_filter]

/-- Claim C1, as stated, is false at the concrete request
`convert("a.jpg", "xyz", {})` started on a filesystem without the output
directory: the call creates the output directory (a filesystem side
effect preceding the failure), and the error it throws is the wrapped
`ReferenceError` from the capability table's undefined identifiers, not
the "not supported" error. -/
theorem c1_counterexample :
    (convertFile noopStrategyRun "a.jpg" "xyz" 0 "tok"
        ⟨false, []⟩).fs.outputDirExists = true ∧
    (FS.mk false []).outputDirExists = false ∧
    (convertFile noopStrategyRun "a.jpg" "xyz" 0 "tok" ⟨false, []⟩).result ≠
      .error "Conversion failed: Conversion from jpg to xyz not supported" ∧
    (convertFile noopStrategyRun "a.jpg" "xyz" 0 "tok" ⟨false, []⟩).result =
      .error "Conversion failed: convertPdfToImage is not defined" := by
  refine ⟨?_, rfl, ?_, ?_⟩ <;> decide

/-- Claim C1 (amended): for every pair (inputFormat, outputFormat) with no
matching descriptor in the Capability Table, `convertFile` fails and
leaves no file at the candidate output path, but the failure comes only
after the output directory has been ensured (created when absent), and
the thrown error is the wrapped `ReferenceError` from the table's
undefined converter references rather than an unsupported-conversion
error. -/
theorem c1_unsupported_pair (beh : String → StrategyRun)
    (inputPath outputFormat : String) (timestamp : Nat) (token : String)
    (fs0 : FS)
    (_hnomatch : converterEntries.any (fun e =>
      e.inputs.contains (inputExtOf inputPath) &&
      e.outputs.contains outputFormat) = false) :
    (convertFile beh inputPath outputFormat timestamp token fs0).result =
      .error "Conversion failed: convertPdfToImage is not defined" ∧
    (convertFile beh inputPath outputFormat timestamp token
      fs0).fs.outputDirExists = true ∧
    outputPathOf timestamp token outputFormat ∉
      (convertFile beh inputPath outputFormat timestamp token fs0).fs.files ∧
    (convertFile beh inputPath outputFormat timestamp token fs0).emits = [] := by
  rw [convertFile_eq]
  exact ⟨rfl, rfl, not_mem_filter_ne _ _, rfl⟩

theorem c1_witness :
    (converterEntries.any (fun e =>
      e.inputs.contains (inputExtOf "a.jpg") &&
      e.outputs.contains "xyz") = false) ∧
    ((convertFile noopStrategyRun "a.jpg" "xyz" 0 "tok" ⟨false, []⟩).result =
      .error "Conversion failed: convertPdfToImage is not defined" ∧
    (convertFile noopStrategyRun "a.jpg" "xyz" 0 "tok"
      ⟨false, []⟩).fs.outputDirExists = true ∧
    outputPathOf 0 "tok" "xyz" ∉
      (convertFile noopStrategyRun "a.jpg" "xyz" 0 "tok" ⟨false, []⟩).fs.files ∧
    (convertFile noopStrategyRun "a.jpg" "xyz" 0 "tok" ⟨false, []⟩).emits = []) :=
  ⟨by decide,
   c1_unsupported_pair noopStrategyRun "a.jpg" "xyz" 0 "tok" ⟨false, []⟩
     (by decide)⟩

/-- Claim C2 fails on the code: the pair (jpg, png) is present in the
Capability Table, yet `convertFile("photo.jpg", "png", ...)` throws the
wrapped `ReferenceError` for every strategy behavior, timestamp, token
and starting filesystem, instead of succeeding with an output file. -/
theorem c2_supported_pair_still_fails :
    (converterEntries.any (fun e =>
      e.inputs.contains (inputExtOf "photo.jpg") &&
      e.outputs.contains "png") = true) ∧
    ∀ (beh : String → StrategyRun) (timestamp : Nat) (token : String)
      (fs0 : FS),
      (convertFile beh "photo.jpg" "png" timestamp token fs0).result =
        .error "Conversion failed: convertPdfToImage is not defined" := by
  refine ⟨by decide, fun beh timestamp token fs0 => ?_⟩
  rw [convertFile_eq]

/-- Claim C3: within any single call to `convertFile`, the sequence of
percents delivered to the progress sink is non-decreasing, and 100 is
emitted if and only if the call succeeds.  On this code the property
holds because every call fails inside `getConverter` before the first
progress emission (see C10), so the delivered sequence is empty and no
call succeeds. -/
theorem c3_progress_monotone_terminal (beh : String → StrategyRun)
    (inputPath outputFormat : String) (timestamp : Nat) (token : String)
    (fs0 : FS) :
    List.Chain' (· ≤ ·)
      (convertFile beh inputPath outputFormat timestamp token fs0).emits ∧
    (100 ∈ (convertFile beh inputPath outputFormat timestamp token fs0).emits ↔
      ∃ r, (convertFile beh inputPath outputFormat timestamp token fs0).result =
        .ok r) := by
  rw [convertFile_eq]
  refine ⟨List.chain'_nil, ?_⟩
  simp

/-- Claim C6: on every failure path of `convertFile`, the thrown error is
the single wrapper `Conversion failed: ⟨cause message⟩`, the best-effort
unlink of the candidate output path has been performed (it is total in
the model: a failing unlink is swallowed by the empty `catch`), and no
file remains at the candidate output path afterwards. -/
theorem c6_failure_wrapped_and_clean (beh : String → StrategyRun)
    (inputPath outputFormat : String) (timestamp : Nat) (token : String)
    (fs0 : FS) (msg : String)
    (hfail : (convertFile beh inputPath outputFormat timestamp token
      fs0).result = .error msg) :
    (∃ cause, msg = "Conversion failed: " ++ cause) ∧
    outputPathOf timestamp token outputFormat ∉
      (convertFile beh inputPath outputFormat timestamp token fs0).fs.files := by
  rw [convertFile_eq] at hfail ⊢
  refine ⟨⟨"convertPdfToImage is not defined", ?_⟩, not_mem_filter_ne _ _⟩
  cases hfail
  rfl

theorem c6_witness :
    (∃ cause,
      "Conversion failed: convertPdfToImage is not defined" =
        "Conversion failed: " ++ cause) ∧
    outputPathOf 0 "tok" "txt" ∉
      (convertFile noopStrategyRun "doc.pdf" "txt" 0 "tok"
        ⟨false, []⟩).fs.files :=
  c6_failure_wrapped_and_clean noopStrategyRun "doc.pdf" "txt" 0 "tok"
    ⟨false, []⟩ "Conversion failed: convertPdfToImage is not defined"
    (by decide)

/-- Claim C10: the `converters` object literal of `getConverter` binds
`pdf -> jpg,jpeg,png` to the identifier `convertPdfToImage` and
`zip,rar,7z -> zip` to `convertArchive`; neither identifier is declared
anywhere in the module, so evaluating the literal raises
`ReferenceError: convertPdfToImage is not defined` (the first undefined
reference in property order).  Consequently every `getConverter` call
raises that `ReferenceError` instead of returning a strategy or `null`,
and every `convertFile` call fails with its wrapped message. -/
theorem c10_undefined_references :
    (TableEntry.mk ["pdf"] ["jpg", "jpeg", "png"] "convertPdfToImage" ∈
      converterEntries) ∧
    (TableEntry.mk ["zip", "rar", "7z"] ["zip"] "convertArchive" ∈
      converterEntries) ∧
    "convertPdfToImage" ∉ declaredIdents ∧
    "convertArchive" ∉ declaredIdents ∧
    (∀ i o, getConverter i o =
      .error (.referenceError "convertPdfToImage")) ∧
    (∀ (beh : String → StrategyRun) (inputPath outputFormat : String)
      (timestamp : Nat) (token : String) (fs0 : FS),
      (convertFile beh inputPath outputFormat timestamp token fs0).result =
        .error ("Conversion failed: " ++
          (JsError.referenceError "convertPdfToImage").message)) := by
  refine ⟨by decide, by decide, by decide, by decide, getConverter_eq,
    fun beh inputPath outputFormat timestamp token fs0 => ?_⟩
  rw [convertFile_eq]
  rfl

/-! ## The Process Runner (`runFFmpeg`, lines 325–370)

`runFFmpeg` spawns ffmpeg, watches its stderr stream chunk by chunk, and
settles its promise from the process events.  A stderr chunk is modelled
by the results of the two regex matches applied to it:
`Duration: (\d\d):(\d\d):(\d\d)` and `time=(\d\d):(\d\d):(\d\d)`. -/

/-- The regex matches found in one stderr chunk: the captured
(hours, minutes, seconds) of a `Duration:` marker and of a `time=`
marker, when present. -/
structure Chunk where
  dur : Option (Nat × Nat × Nat)
  time : Option (Nat × Nat × Nat)
deriving DecidableEq

/-- `hours * 3600 + minutes * 60 + seconds` (lines 339–342, 348–351). -/
def hmsToSeconds : Nat × Nat × Nat → Nat
  | (h, m, s) => h * 3600 + m * 60 + s

/-- `Math.min(Math.round((time/duration)*80) + 20, 95)` (line 353), with
`Math.round(x) = ⌊x + 1/2⌋` computed exactly:
`round(t*80/d) = ⌊(160*t + d) / (2*d)⌋`. -/
def jsPercent (t d : Nat) : Nat :=
  min ((160 * t + d) / (2 * d) + 20) 95

/-- The mutable state of the stderr listener: the `duration` variable and
the percents emitted so far, in order. -/
structure RunState where
  duration : Option Nat
  emitted : List Nat
deriving DecidableEq

/-- The duration-extraction half of the stderr handler (lines 337–343):
a `Duration:` match overwrites the `duration` variable. -/
def updateDuration (st : RunState) (c : Chunk) : RunState :=
  match c.dur with
  | some x => { st with duration := some (hmsToSeconds x) }
  | none => st

/-- The time-extraction half of the stderr handler (lines 346–355): a
`time=` match emits a progress event when `duration` is truthy (set and
nonzero in JS). -/
def emitTime (st : RunState) (c : Chunk) : RunState :=
  match c.time, st.duration with
  | some x, some d =>
    if d ≠ 0
    then { st with emitted := st.emitted ++ [jsPercent (hmsToSeconds x) d] }
    else st
  | _, _ => st

/-- The stderr `data` handler (lines 333–356): duration extraction, then
time extraction on the updated state. -/
def stepChunk (st : RunState) (c : Chunk) : RunState :=
  emitTime (updateDuration st c) c

/-- The percents emitted by the stderr listener over a whole stream. -/
def runFFmpegEmits (chunks : List Chunk) : List Nat :=
  (chunks.foldl stepChunk ⟨none, []⟩).emitted

/-- Modelled from the spec: the stderr handler as §4.3 words it, caching
total seconds from the *first* occurrence of a duration marker (later
duration markers are ignored); otherwise identical to `stepChunk`. -/
def stepChunkFirstCache (st : RunState) (c : Chunk) : RunState :=
  let st1 := match c.dur, st.duration with
    | some x, none => { st with duration := some (hmsToSeconds x) }
    | _, _ => st
  match c.time, st1.duration with
  | some x, some d =>
    if d ≠ 0
    then { st1 with emitted := st1.emitted ++ [jsPercent (hmsToSeconds x) d] }
    else st1
  | _, _ => st1

/-- Modelled from the spec: the emissions under first-occurrence caching. -/
def runFFmpegEmitsFirstCache (chunks : List Chunk) : List Nat :=
  (chunks.foldl stepChunkFirstCache ⟨none, []⟩).emitted

theorem jsPercent_bounds (t d : Nat) : 20 ≤ jsPercent t d ∧ jsPercent t d ≤ 95 :=
  ⟨le_min (Nat.le_add_left 20 _) (by norm_num), Nat.min_le_right _ _⟩

theorem updateDuration_emitted (st : RunState) (c : Chunk) :
    (updateDuration st c).emitted = st.emitted := by
  unfold updateDuration
  cases c.dur <;> rfl

/-- The time-extraction half either leaves the emissions unchanged or
appends a single `jsPercent` value. -/
theorem emitTime_emitted (st : RunState) (c : Chunk) :
    (emitTime st c).emitted = st.emitted ∨
    ∃ t d, (emitTime st c).emitted = st.emitted ++ [jsPercent t d] := by
  unfold emitTime
  cases ht : c.time with
  | none => exact Or.inl rfl
  | some x =>
    cases hd : st.duration with
    | none => exact Or.inl rfl
    | some d =>
      by_cases hdz : d = 0
      · simp [hdz]
      · simp only [ne_eq, hdz, not_false_eq_true, if_true]
        exact Or.inr ⟨hmsToSeconds x, d, rfl⟩

/-- One handler step only appends percents of the form `jsPercent t d`. -/
theorem stepChunk_emitted (st : RunState) (c : Chunk) :
    (stepChunk st c).emitted = st.emitted ∨
    ∃ t d, (stepChunk st c).emitted = st.emitted ++ [jsPercent t d] := by
  unfold stepChunk
  rcases emitTime_emitted (updateDuration st c) c with h | ⟨t, d, h⟩
  · rw [h, updateDuration_emitted]
    exact Or.inl rfl
  · rw [h, updateDuration_emitted]
    exact Or.inr ⟨t, d, rfl⟩

theorem foldl_stepChunk_bounds (chunks : List Chunk) (st : RunState)
    (hst : ∀ p ∈ st.emitted, 20 ≤ p ∧ p ≤ 95) :
    ∀ p ∈ (chunks.foldl stepChunk st).emitted, 20 ≤ p ∧ p ≤ 95 := by
  induction chunks generalizing st with
  | nil => exact hst
  | cons c cs ih =>
    refine ih (stepChunk st c) ?_
    rcases stepChunk_emitted st c with h | ⟨t, d, h⟩
    · rw [h]; exact hst
    · rw [h]
      intro p hp
      rcases List.mem_append.mp hp with hp | hp
      · exact hst p hp
      · rcases List.mem_singleton.mp hp with rfl
        exact jsPercent_bounds t d

/-- If no chunk carries a duration marker, no progress is emitted. -/
theorem foldl_stepChunk_no_duration (chunks : List Chunk) (st : RunState)
    (hchunks : ∀ c ∈ chunks, c.dur = none) (hst : st.duration = none) :
    (chunks.foldl stepChunk st).emitted = st.emitted ∧
    (chunks.foldl stepChunk st).duration = none := by
  induction chunks generalizing st with
  | nil => exact ⟨rfl, hst⟩
  | cons c cs ih =>
    have hc : c.dur = none := hchunks c (List.mem_cons_self c cs)
    have hupd : updateDuration st c = st := by
      unfold updateDuration
      rw [hc]
    have hstep : stepChunk st c = st := by
      unfold stepChunk emitTime
      rw [hupd, hst]
      cases c.time <;> rfl
    rw [List.foldl_cons, hstep]
    exact ih st (fun d hd => hchunks d (List.mem_cons_of_mem c hd)) hst

/-- Claim C4, as stated, is false on the code: the handler does not cache
the total from the first duration marker; a later duration marker
overwrites it.  On the stream
`[Duration 00:00:10], [Duration 00:00:20], [time=00:00:10]` the code
emits 60 (elapsed 10 over the *latest* total 20), while first-occurrence
caching as the spec words it would emit 95 (elapsed 10 over total 10,
clamped). -/
theorem c4_counterexample :
    runFFmpegEmits
      [⟨some (0, 0, 10), none⟩, ⟨some (0, 0, 20), none⟩,
       ⟨none, some (0, 0, 10)⟩] = [60] ∧
    runFFmpegEmitsFirstCache
      [⟨some (0, 0, 10), none⟩, ⟨some (0, 0, 20), none⟩,
       ⟨none, some (0, 0, 10)⟩] = [95] ∧
    (60 : Nat) ≠ 95 := by
  refine ⟨by decide, by decide, by decide⟩

/-- Claim C4 (amended): the stderr handler recomputes and overwrites the
total on every duration marker (last occurrence wins) rather than caching
the first; an elapsed-time marker emits a progress event only once a
total is known (and nonzero), with percent
`min(round(elapsed/total*80) + 20, 95)`, so every emitted percent `p`
satisfies `20 ≤ p ≤ 95`. -/
theorem c4_percent_bounds :
    (∀ (chunks : List Chunk) (p : Nat),
      p ∈ runFFmpegEmits chunks → 20 ≤ p ∧ p ≤ 95) ∧
    (∀ chunks : List Chunk,
      (∀ c ∈ chunks, c.dur = none) → runFFmpegEmits chunks = []) := by
  constructor
  · intro chunks p hp
    exact foldl_stepChunk_bounds chunks ⟨none, []⟩ (by simp) p hp
  · intro chunks hchunks
    exact (foldl_stepChunk_no_duration chunks ⟨none, []⟩ hchunks rfl).1

theorem c4_witness :
    ((60 : Nat) ∈ runFFmpegEmits
      [⟨some (0, 0, 10), none⟩, ⟨none, some (0, 0, 5)⟩] →
        20 ≤ 60 ∧ (60 : Nat) ≤ 95) ∧
    (20 ≤ (60 : Nat) ∧ (60 : Nat) ≤ 95) ∧
    ((∀ c ∈ ([⟨none, some (0, 0, 5)⟩] : List Chunk), c.dur = none) ∧
      runFFmpegEmits [⟨none, some (0, 0, 5)⟩] = []) :=
  ⟨c4_percent_bounds.1 [⟨some (0, 0, 10), none⟩, ⟨none, some (0, 0, 5)⟩] 60,
   c4_percent_bounds.1 [⟨some (0, 0, 10), none⟩, ⟨none, some (0, 0, 5)⟩] 60
     (by decide),
   by decide,
   c4_percent_bounds.2 [⟨none, some (0, 0, 5)⟩] (by decide)⟩

/-- How the spawned process ends: the binary could not be launched at all
(the `error` event, line 366), or the process exited with a code (the
`close` event, line 358). -/
inductive ProcOutcome where
  | spawnFailure (msg : String)
  | exited (code : Int)
deriving DecidableEq

/-- The failure of a `runFFmpeg` promise. -/
inductive RunError where
  | processSpawnError (msg : String)
  | processExecutionError (code : Int)
deriving DecidableEq

/-- The message of a `runFFmpeg` rejection (line 362). -/
def RunError.message : RunError → String
  | .processSpawnError m => m
  | .processExecutionError c => "FFmpeg process failed with code " ++ toString c

/-- How the `runFFmpeg` promise settles (lines 358–368): resolve on exit
code 0; reject with the execution error carrying the code on any other
exit; reject with the spawn error when the binary cannot be launched.
The function consumes exactly one process outcome — no retry exists. -/
def runFFmpegResult : ProcOutcome → Except RunError Unit
  | .spawnFailure m => .error (.processSpawnError m)
  | .exited c => if c = 0 then .ok () else .error (.processExecutionError c)

/-- Claim C5: `runFFmpeg` resolves exactly when the process exits with
code 0; every nonzero exit code `c` rejects with the execution error
carrying `c` (and naming it in the message); a launch failure rejects
with the spawn error.  No retry is attempted: the result is a function of
the single process outcome. -/
theorem c5_exit_semantics :
    (∀ outcome : ProcOutcome,
      runFFmpegResult outcome = .ok () ↔ outcome = .exited 0) ∧
    (∀ c : Int, c ≠ 0 →
      runFFmpegResult (.exited c) = .error (.processExecutionError c) ∧
      (RunError.processExecutionError c).message =
        "FFmpeg process failed with code " ++ toString c) ∧
    (∀ m : String,
      runFFmpegResult (.spawnFailure m) = .error (.processSpawnError m)) := by
  refine ⟨fun outcome => ?_, fun c hc => ⟨?_, rfl⟩, fun m => rfl⟩
  · cases outcome with
    | spawnFailure m => simp [runFFmpegResult]
    | exited c =>
      by_cases hc : c = 0 <;> simp [runFFmpegResult, hc]
  · simp [runFFmpegResult, hc]

theorem c5_witness :
    (runFFmpegResult (.exited 0) = .ok () ↔
      ProcOutcome.exited 0 = .exited 0) ∧
    (runFFmpegResult (.exited 1) = .error (.processExecutionError 1) ∧
      (RunError.processExecutionError 1).message =
        "FFmpeg process failed with code " ++ toString (1 : Int)) ∧
    runFFmpegResult (.spawnFailure "spawn ENOENT") =
      .error (.processSpawnError "spawn ENOENT") :=
  ⟨c5_exit_semantics.1 (.exited 0),
   c5_exit_semantics.2.1 1 (by decide),
   c5_exit_semantics.2.2 "spawn ENOENT"⟩

/-! ## The image→document strategy (`convertImageToPdf`, lines 170–203) -/

/-- The two encodings `pdf-lib` can embed here: `embedJpg` and `embedPng`
(lines 181–184). -/
inductive ImgEnc where
  | jpeg
  | png
deriving DecidableEq

/-- One `page.drawImage` call: position and size (lines 192–197). -/
structure DrawOp where
  x : Nat
  y : Nat
  w : Nat
  h : Nat
deriving DecidableEq

/-- One page of the produced document: its size (from `addPage`, line
191) and the images drawn onto it. -/
structure PdfPage where
  w : Nat
  h : Nat
  draws : List DrawOp
deriving DecidableEq

/-- `convertImageToPdf(inputPath, outputPath, options, progressCallback)`
(lines 170–203), with the source image's pixel dimensions supplied as
`imgW`/`imgH` (the `width`/`height` of the embedded image object):
emit 20, read the file, emit 40, choose the embed call from the
lowercased extension — `.jpg`/`.jpeg` embed as JPEG, `.png` as PNG, and
anything else throws `Unsupported image format for PDF conversion` —
then emit 60, add one page sized `[image.width, image.height]`, draw the
image at `(0, 0)` with the image's full size, emit 80 and write the
document.  Returns the emitted percents and, on success, the chosen
encoding with the document's pages. -/
def convertImageToPdf (inputPath : String) (imgW imgH : Nat) :
    List Nat × Except JsError (ImgEnc × List PdfPage) :=
  if extLowerOf inputPath = ".jpg" ∨ extLowerOf inputPath = ".jpeg" then
    ([20, 40, 60, 80], .ok (.jpeg, [⟨imgW, imgH, [⟨0, 0, imgW, imgH⟩]⟩]))
  else if extLowerOf inputPath = ".png" then
    ([20, 40, 60, 80], .ok (.png, [⟨imgW, imgH, [⟨0, 0, imgW, imgH⟩]⟩]))
  else
    ([20, 40], .error (.error "Unsupported image format for PDF conversion"))

/-- Claim C7: the image→document strategy embeds the source image exactly
when its extension selects one of the two embeddable encodings
(`.jpg`/`.jpeg` → JPEG, `.png` → PNG) and throws
`Unsupported image format for PDF conversion` for every other source
format; on success the document has exactly one page sized to the
image's pixel dimensions, carrying one draw of the image at origin
`(0, 0)` covering the full page. -/
theorem c7_image_to_pdf (inputPath : String) (imgW imgH : Nat) :
    ((extLowerOf inputPath = ".jpg" ∨ extLowerOf inputPath = ".jpeg" ∨
        extLowerOf inputPath = ".png") →
      ∃ enc pages,
        (convertImageToPdf inputPath imgW imgH).2 = .ok (enc, pages)) ∧
    (¬(extLowerOf inputPath = ".jpg" ∨ extLowerOf inputPath = ".jpeg" ∨
        extLowerOf inputPath = ".png") →
      (convertImageToPdf inputPath imgW imgH).2 =
        .error (.error "Unsupported image format for PDF conversion")) ∧
    (∀ enc pages,
      (convertImageToPdf inputPath imgW imgH).2 = .ok (enc, pages) →
        pages = [⟨imgW, imgH, [⟨0, 0, imgW, imgH⟩]⟩]) := by
  unfold convertImageToPdf
  by_cases hj : extLowerOf inputPath = ".jpg" ∨ extLowerOf inputPath = ".jpeg"
  · rw [if_pos hj]
    refine ⟨fun _ => ⟨.jpeg, _, rfl⟩, fun hcon => ?_, fun enc pages h => ?_⟩
    · exact absurd (hj.elim Or.inl (fun h2 => Or.inr (Or.inl h2))) hcon
    · cases h
      rfl
  · rw [if_neg hj]
    by_cases hp : extLowerOf inputPath = ".png"
    · rw [if_pos hp]
      refine ⟨fun _ => ⟨.png, _, rfl⟩, fun hcon => ?_, fun enc pages h => ?_⟩
      · exact absurd (Or.inr (Or.inr hp)) hcon
      · cases h
        rfl
    · rw [if_neg hp]
      refine ⟨fun hyes => ?_, fun _ => rfl, fun enc pages h => ?_⟩
      · rcases hyes with h1 | h1 | h1
        · exact absurd (Or.inl h1) hj
        · exact absurd (Or.inr h1) hj
        · exact absurd h1 hp
      · cases h

theorem c7_witness :
    (∃ enc pages,
      (convertImageToPdf "photo.jpg" 100 50).2 = .ok (enc, pages)) ∧
    ((convertImageToPdf "photo.gif" 100 50).2 =
      .error (.error "Unsupported image format for PDF conversion")) ∧
    ([(⟨100, 50, [⟨0, 0, 100, 50⟩]⟩ : PdfPage)] =
      [⟨100, 50, [⟨0, 0, 100, 50⟩]⟩]) :=
  ⟨(c7_image_to_pdf "photo.jpg" 100 50).1 (by decide),
   (c7_image_to_pdf "photo.gif" 100 50).2.1 (by decide),
   (c7_image_to_pdf "photo.jpg" 100 50).2.2 .jpeg
     [⟨100, 50, [⟨0, 0, 100, 50⟩]⟩] (by decide)⟩

/-! ## The document→text strategy (`convertPdfToText`, lines 312–318) -/

/-- One `fs.writeFile` call: target path and written content. -/
structure WriteOp where
  path : String
  content : String
deriving DecidableEq

/-- `convertPdfToText(inputPath, outputPath, options, progressCallback)`
(lines 312–318): emit 50, then write a fixed placeholder string to the
output path and return successfully.  No text is read from the input
document at all. -/
def convertPdfToText (inputPath outputPath : String) :
    List Nat × List WriteOp × Except JsError Unit :=
  ([50], [⟨outputPath, "PDF text extraction not implemented yet"⟩], .ok ())

/-- Claim C8 is violated by the code: for every input, the pdf→txt
strategy reports success while the single write it performs stores the
fixed stand-in message `PDF text extraction not implemented yet` — no
content extracted from the input influences the output. -/
theorem c8_placeholder_reported_as_success (inputPath outputPath : String) :
    (convertPdfToText inputPath outputPath).2.2 = .ok () ∧
    (convertPdfToText inputPath outputPath).2.1 =
      [⟨outputPath, "PDF text extraction not implemented yet"⟩] ∧
    ∀ inputPath2,
      convertPdfToText inputPath2 outputPath =
        convertPdfToText inputPath outputPath :=
  ⟨rfl, rfl, fun _ => rfl⟩

/-! ## The Retention Sweeper (`cleanupTempFiles`, lines 389–415) -/

/-- One directory entry as the sweeper sees it: its name and the
`stats.mtime.getTime()` value in milliseconds. -/
structure DirEntry where
  name : String
  mtime : Int
deriving DecidableEq

/-- One swept directory.  `readFail` models `fs.readdir` throwing (the
whole directory is skipped); `failAt` models the first `stat`/`unlink`
inside the loop that throws, aborting the rest of this directory's loop
(the per-directory `catch`, lines 408–410); `none` means every
filesystem call succeeds. -/
structure TempDir where
  readFail : Bool
  entries : List DirEntry
  failAt : Option Nat
deriving DecidableEq

/-- The per-directory loop (lines 399–407): walk the entries in order,
unlink each whose age `now - mtime` strictly exceeds `olderThan`, and
stop (leaving the remaining entries) if the filesystem call for the
current entry fails. -/
def sweepEntries (now olderThan : Int) :
    List DirEntry → Option Nat → List DirEntry
  | [], _ => []
  | f :: fs, failAt =>
    if failAt = some 0 then f :: fs
    else
      let rest := sweepEntries now olderThan fs (failAt.map (fun k => k - 1))
      if now - f.mtime > olderThan then rest else f :: rest

/-- One directory's sweep (lines 394–411): a `readdir` failure is caught
and leaves the directory untouched, otherwise the entry loop runs. -/
def sweepDir (now olderThan : Int) (d : TempDir) : TempDir :=
  if d.readFail then d
  else { d with entries := sweepEntries now olderThan d.entries d.failAt }

/-- `cleanupTempFiles(olderThan)` (lines 389–415) over its directory
list `[uploadDir, convertDir]`: each directory is swept independently
inside its own `catch`, and the outer `catch` makes the whole sweep
total — it never throws to its caller. -/
def cleanupTempFiles (now olderThan : Int) (dirs : List TempDir) :
    List TempDir :=
  dirs.map (sweepDir now olderThan)

/-- The default `olderThan` argument: `2 * 60 * 60 * 1000` ms (line 389). -/
def defaultOlderThan : Int := 2 * 60 * 60 * 1000

/-- A failure-free entry loop keeps exactly the entries that are not
older than the threshold. -/
theorem sweepEntries_none (now olderThan : Int) (l : List DirEntry) :
    sweepEntries now olderThan l none =
      l.filter (fun f => decide (now - f.mtime ≤ olderThan)) := by
  induction l with
  | nil => rfl
  | cons f fs ih =>
    show (if (none : Option Nat) = some 0 then f :: fs
          else
            if now - f.mtime > olderThan
            then sweepEntries now olderThan fs ((none : Option Nat).map
              (fun k => k - 1))
            else f :: sweepEntries now olderThan fs ((none : Option Nat).map
              (fun k => k - 1))) = _
    rw [if_neg (by simp)]
    show (if now - f.mtime > olderThan then sweepEntries now olderThan fs none
          else f :: sweepEntries now olderThan fs none) = _
    by_cases h : now - f.mtime > olderThan
    · rw [if_pos h, ih, List.filter_cons,
        if_neg (by simp only [decide_eq_true_eq]; exact not_le.mpr h)]
    · rw [if_neg h, ih, List.filter_cons,
        if_pos (by simp only [decide_eq_true_eq]; exact not_lt.mp h)]

/-- Claim C9: for every configured directory the sweeper deletes exactly
the entries strictly older than `now - maxAge` and keeps every other
entry; directories are swept independently, so a read or delete failure
in one directory leaves the others' sweeps unchanged; the sweep itself
is a total function (it never throws: every failure is caught), and the
default age is two hours in milliseconds. -/
theorem c9_retention_sweep :
    (∀ (now olderThan : Int) (l : List DirEntry),
      sweepDir now olderThan ⟨false, l, none⟩ =
        ⟨false, l.filter (fun f => decide (now - f.mtime ≤ olderThan)),
          none⟩) ∧
    (∀ (now olderThan : Int) (l : List DirEntry) (f : DirEntry),
      f ∈ (sweepDir now olderThan ⟨false, l, none⟩).entries ↔
        f ∈ l ∧ now - f.mtime ≤ olderThan) ∧
    (∀ (now olderThan : Int) (d1 d2 : TempDir),
      cleanupTempFiles now olderThan [d1, d2] =
        [sweepDir now olderThan d1, sweepDir now olderThan d2]) ∧
    (∀ (now olderThan : Int) (l : List DirEntry) (failAt : Option Nat),
      sweepDir now olderThan ⟨true, l, failAt⟩ = ⟨true, l, failAt⟩) ∧
    defaultOlderThan = 7200000 := by
  refine ⟨fun now olderThan l => ?_, fun now olderThan l f => ?_,
    fun now olderThan d1 d2 => rfl, fun now olderThan l failAt => rfl, rfl⟩
  · unfold sweepDir
    rw [if_neg (by simp), sweepEntries_none]
  · unfold sweepDir
    rw [if_neg (by simp), sweepEntries_none]
    simp [List.mem_filter]
